import Mathlib

/-!
Shallow embedding of the rate-limiting layer of the Expense_Tracker repository
(`Expense_Tracker/web/middleware/ratelimiter/limiter.py` and
`Expense_Tracker/web/middleware/ratelimiter/middleware.py`).

Modelling conventions:
* Python `datetime` values and `timedelta.total_seconds()` floats are modelled
  as rationals (`ℚ`); a single time value `now` stands for the two adjacent
  `datetime.now()` calls inside one admission check.
* Python `int` is modelled as `ℤ`; `int(x)` (truncation toward zero) is `pyInt`.
* Python `str` is modelled as Lean `String`; the string operations the source
  uses (`strip`, `split(",")`, `startswith`) are given as structural functions
  on the character list so they compute.
* The `RateLimiter` object's mutable dictionary `self._cache` is threaded
  explicitly as an association list `Cache` (insertion-ordered, keys distinct,
  as in a Python `dict`); functions return the post-call store.
* Raising `RateLimitExceeded` is modelled with `Except`: `is_allowed_key`
  returns the post-call store together with `Except.ok true` (return) or
  `Except.error e` (raise).
-/

namespace Ratelimiter

/-- Python `str(n)` for a natural number. -/
def natToString (n : ℕ) : String :=
  String.mk (Nat.toDigits 10 n)

/-- Python `str(z)` for an integer. -/
def intToString (z : ℤ) : String :=
  if z < 0 then "-" ++ natToString z.natAbs else natToString z.natAbs

/-- Python `int(q)` on a float/rational: truncation toward zero. -/
def pyInt (q : ℚ) : ℤ :=
  if 0 ≤ q then q.floor else q.ceil

/-- Python's `str.strip()` whitespace set (space, tab, newline, return, vertical
tab, form feed). -/
def pyIsSpace (c : Char) : Bool :=
  c = ' ' || c = '\t' || c = '\n' || c = '\r' || c = '\x0b' || c = '\x0c'

/-- Python `s.strip()`: drop leading and trailing whitespace. -/
def pyStrip (s : String) : String :=
  String.mk (((s.data.dropWhile pyIsSpace).reverse.dropWhile pyIsSpace).reverse)

/-- Splitting a character list at every occurrence of `sep`; always returns a
non-empty list of segments, like Python `str.split(sep)` with a one-character
separator. -/
def splitChar (sep : Char) : List Char → List (List Char)
  | [] => [[]]
  | c :: cs =>
    if c = sep then [] :: splitChar sep cs
    else
      match splitChar sep cs with
      | [] => [[c]]
      | s :: ss => (c :: s) :: ss

/-- Python `s.split(",")` as used in `RateLimitConfig.get_cache_key`. -/
def pySplitComma (s : String) : List String :=
  (splitChar ',' s.data).map String.mk

/-- Python `s.startswith(p)`. -/
def pyStartsWith (s p : String) : Bool :=
  p.data.isPrefixOf s.data

/-- The request data the rate limiter reads: `request.state.user` (an id set by
the auth layer; `none` covers both a missing attribute and a falsy user),
`request.headers.get("X-Forwarded-For")`, `request.client.host` (with
`request.client` possibly `None`), and `request.url.path`. -/
structure Request where
  state_user_id : Option ℤ
  x_forwarded_for : Option String
  client_host : Option String
  url_path : String
deriving DecidableEq

/-- Source `RateLimitConfig.get_user`: `str(user.id)` when a user is attached to the
request state, else `None`. -/
def get_user (request : Request) : Option String :=
  request.state_user_id.map intToString

/-- Source `RateLimitConfig.get_cache_key`: `"user:" + user_id` when a user id is
resolvable; otherwise the client ip — the stripped first comma-separated entry
of the `X-Forwarded-For` header when that header is truthy (present and
non-empty), else `request.client.host`, else `"unknown"` — combined with the
path as `"ip:{ip}:path:{endpoint}"` (braces denote the f-string holes). -/
def get_cache_key (request : Request) : String :=
  match get_user request with
  | some user_id => "user:" ++ user_id
  | none =>
    let forwarded := request.x_forwarded_for.getD ""
    let ip :=
      if forwarded ≠ "" then pyStrip ((pySplitComma forwarded).headD "")
      else request.client_host.getD "unknown"
    "ip:" ++ ip ++ ":path:" ++ request.url_path

/-- The key function as the spec sentence words it: the forwarded-for branch is
taken whenever the header is *present*, with no non-emptiness requirement.
Written from the spec's words, to be compared with `get_cache_key`. -/
def get_cache_key_claimed (request : Request) : String :=
  match get_user request with
  | some user_id => "user:" ++ user_id
  | none =>
    let ip :=
      match request.x_forwarded_for with
      | some forwarded => pyStrip ((pySplitComma forwarded).headD "")
      | none => request.client_host.getD "unknown"
    "ip:" ++ ip ++ ":path:" ++ request.url_path

/-- The key function as the amended claim words it: the forwarded-for branch is
taken when the header is present *and non-empty*. -/
def get_cache_key_amended (request : Request) : String :=
  match get_user request with
  | some user_id => "user:" ++ user_id
  | none =>
    let ip :=
      match request.x_forwarded_for with
      | some forwarded =>
        if forwarded ≠ "" then pyStrip ((pySplitComma forwarded).headD "")
        else request.client_host.getD "unknown"
      | none => request.client_host.getD "unknown"
    "ip:" ++ ip ++ ":path:" ++ request.url_path

/-- The state of a raised `RateLimitExceeded` exception. The real class stores
`status_code`, `detail` and `headers` on the `HTTPException` base; the
constructor argument `retry_after` is kept as an explicit field here so the
spec's retry-after value can be stated directly. -/
structure RateLimitExceeded where
  status_code : ℤ
  detail : String
  retry_after : ℤ
  headers : Option (List (String × String))
deriving DecidableEq

/-- Constructor `RateLimitExceeded.__init__`: status 429, the given detail, and a
`Retry-After` header exactly when `retry_after` is truthy (non-zero). -/
def mkRateLimitExceeded (detail : String) (retry_after : ℤ) : RateLimitExceeded :=
  { status_code := 429
    detail := detail
    retry_after := retry_after
    headers :=
      if retry_after ≠ 0 then some [("Retry-After", intToString retry_after)] else none }

/-- The three numeric/config fields of `RateLimitConfig` (the `key_func` field
is never consulted by `is_allowed`, which calls the static `get_cache_key`
directly, so it is omitted). -/
structure RateLimitConfig where
  requests_limit : ℤ
  window_size : ℤ
  auth_requests_limit : ℤ
deriving DecidableEq

/-- Constructor `RateLimitConfig.__init__`: `auth_requests_limit or requests_limit * 2` —
the default kicks in when the argument is falsy, i.e. `None` or `0`. -/
def RateLimitConfig.ofInit (requests_limit window_size : ℤ)
    (auth_requests_limit : Option ℤ) : RateLimitConfig :=
  { requests_limit := requests_limit
    window_size := window_size
    auth_requests_limit :=
      match auth_requests_limit with
      | none => requests_limit * 2
      | some a => if a = 0 then requests_limit * 2 else a }

/-- The limiter's store `self._cache : Dict[str, Tuple[datetime, int]]` as an
insertion-ordered association list from key to (window_start, count). -/
abbrev Cache := List (String × ℚ × ℤ)

/-- First-match lookup, i.e. `self._cache[key]` / `key in self._cache`. -/
def lookup (key : String) : Cache → Option (ℚ × ℤ)
  | [] => none
  | (k, v) :: rest => if k = key then some v else lookup key rest

/-- Dict assignment `self._cache[key] = v`: replace in place when the key is
present, else append. -/
def setKey (key : String) (v : ℚ × ℤ) : Cache → Cache
  | [] => [(key, v)]
  | (k, w) :: rest => if k = key then (k, v) :: rest else (k, w) :: setKey key v rest

/-- The dict invariant: all stored keys are distinct. -/
def KeysNodup (cache : Cache) : Prop :=
  (cache.map Prod.fst).Nodup

/-- Source `RateLimiter._clean_old_requests`: delete every entry whose
`(now - timestamp).total_seconds() >= window_size`. -/
def clean_old_requests (window_size : ℤ) (now : ℚ) (cache : Cache) : Cache :=
  cache.filter fun e => decide (now - e.2.1 < (window_size : ℚ))

/-- Source `RateLimiter.is_allowed` after its `key` and `is_authenticated` have been
computed (lines 126–132 of `limiter.py`; see `is_allowed` for those lines):
pick the effective limit, sweep expired entries, then either admit (returning
the updated store and `ok true`) or raise (returning the swept store and the
`RateLimitExceeded` value). -/
def is_allowed_key (config : RateLimitConfig) (key : String) (is_authenticated : Bool)
    (now : ℚ) (cache : Cache) : Cache × Except RateLimitExceeded Bool :=
  let limit := if is_authenticated then config.auth_requests_limit else config.requests_limit
  let cache1 := clean_old_requests config.window_size now cache
  match lookup key cache1 with
  | some (timestamp, count) =>
    let time_passed := now - timestamp
    if (config.window_size : ℚ) ≤ time_passed then
      (setKey key (now, 1) cache1, Except.ok true)
    else if limit ≤ count then
      let retry_after := pyInt ((config.window_size : ℚ) - time_passed)
      (cache1,
        Except.error (mkRateLimitExceeded
          ("Rate limit exceeded. Try again in " ++ intToString retry_after ++ " seconds")
          retry_after))
    else
      (setKey key (timestamp, count + 1) cache1, Except.ok true)
  | none => (setKey key (now, 1) cache1, Except.ok true)

/-- Source `RateLimiter.is_allowed` on a request: derive the key with the default
`get_cache_key` (the stored `key_func` is not consulted) and the
authentication flag with `get_user ... is not None`, then check. -/
def is_allowed (config : RateLimitConfig) (now : ℚ) (request : Request) (cache : Cache) :
    Cache × Except RateLimitExceeded Bool :=
  is_allowed_key config (get_cache_key request) (get_user request).isSome now cache

/-- A sequence of admission checks for one key at the given times, threading
the store and collecting each check's outcome. -/
def runChecks (config : RateLimitConfig) (key : String) (is_authenticated : Bool) :
    List ℚ → Cache → Cache × List (Except RateLimitExceeded Bool)
  | [], cache => (cache, [])
  | t :: ts, cache =>
    let step := is_allowed_key config key is_authenticated t cache
    let rest := runChecks config key is_authenticated ts step.1
    (rest.1, step.2 :: rest.2)

/-- The response of `RateLimitMiddleware.dispatch`: either the downstream
handler's response, untouched, or the `JSONResponse` built on denial. -/
inductive DispatchResponse (ρ : Type) where
  | fromNext (response : ρ)
  | json (status_code : ℤ) (content : List (String × String))
      (headers : Option (List (String × String)))
deriving DecidableEq

/-- Source `RateLimitMiddleware.dispatch`: pass through when the path starts with an
excluded prefix; otherwise run the admission check, forwarding on admission
and returning the 429 `JSONResponse` built from the raised exception on
denial. The downstream handler is the abstract `call_next`. -/
def dispatch {ρ : Type} (exclude_paths : List String) (config : RateLimitConfig)
    (now : ℚ) (cache : Cache) (request : Request) (call_next : Request → ρ) :
    Cache × DispatchResponse ρ :=
  if exclude_paths.any (fun p => pyStartsWith request.url_path p) then
    (cache, DispatchResponse.fromNext (call_next request))
  else
    match is_allowed config now request cache with
    | (cache1, Except.ok _) => (cache1, DispatchResponse.fromNext (call_next request))
    | (cache1, Except.error e) =>
      (cache1, DispatchResponse.json e.status_code [("detail", e.detail)] e.headers)

/-! Helper lemmas about the store operations. -/

theorem lookup_filter_none (key : String) (p : String × ℚ × ℤ → Bool) (cache : Cache)
    (h : lookup key cache = none) : lookup key (cache.filter p) = none := by
  induction cache with
  | nil => exact h
  | cons e rest ih =>
    obtain ⟨k, v⟩ := e
    by_cases hk : k = key
    · simp [lookup, hk] at h
    · simp only [lookup, if_neg hk] at h
      rw [List.filter_cons]
      split
      · simpa [lookup, hk] using ih h
      · exact ih h

theorem lookup_eq_none_of_not_mem (key : String) (cache : Cache)
    (h : key ∉ cache.map Prod.fst) : lookup key cache = none := by
  induction cache with
  | nil => rfl
  | cons e rest ih =>
    obtain ⟨k, v⟩ := e
    simp only [List.map_cons, List.mem_cons] at h
    push_neg at h
    have hne : ¬ k = key := fun hk => h.1 hk.symm
    simp only [lookup, if_neg hne]
    exact ih h.2

theorem mem_clean_iff (window_size : ℤ) (now : ℚ) (cache : Cache) (x : String × ℚ × ℤ) :
    x ∈ clean_old_requests window_size now cache ↔
      x ∈ cache ∧ now - x.2.1 < (window_size : ℚ) := by
  simp [clean_old_requests, List.mem_filter]

theorem lookup_clean (window_size : ℤ) (now : ℚ) (key : String) (cache : Cache)
    (hnodup : KeysNodup cache) :
    lookup key (clean_old_requests window_size now cache) =
      match lookup key cache with
      | none => none
      | some v => if now - v.1 < (window_size : ℚ) then some v else none := by
  induction cache with
  | nil => rfl
  | cons e rest ih =>
    obtain ⟨k, v⟩ := e
    have hnd : KeysNodup rest := (List.nodup_cons.mp hnodup).2
    have hk_not : k ∉ rest.map Prod.fst := (List.nodup_cons.mp hnodup).1
    by_cases hk : k = key
    · subst hk
      by_cases hkeep : now - v.1 < (window_size : ℚ)
      · simp [clean_old_requests, lookup, hkeep]
      · have hrest : lookup k rest = none := lookup_eq_none_of_not_mem k rest hk_not
        have : lookup k (clean_old_requests window_size now rest) = none :=
          lookup_filter_none _ _ _ hrest
        simp only [clean_old_requests, List.filter_cons] at this ⊢
        simp [lookup, hkeep, this]
    · simp only [clean_old_requests, List.filter_cons] at ih ⊢
      split
      · simpa [lookup, hk] using ih hnd
      · simpa [lookup, hk] using ih hnd

theorem lookup_setKey_self (key : String) (v : ℚ × ℤ) (cache : Cache) :
    lookup key (setKey key v cache) = some v := by
  induction cache with
  | nil => simp [setKey, lookup]
  | cons e rest ih =>
    obtain ⟨k, w⟩ := e
    by_cases hk : k = key
    · simp [setKey, hk, lookup]
    · simp [setKey, hk, lookup, ih]

theorem mem_setKey (x : String × ℚ × ℤ) (key : String) (v : ℚ × ℤ) (cache : Cache)
    (hx : x ∈ setKey key v cache) : x = (key, v) ∨ x ∈ cache := by
  induction cache with
  | nil => simpa [setKey] using hx
  | cons e rest ih =>
    obtain ⟨k, w⟩ := e
    by_cases hk : k = key
    · simp only [setKey, if_pos hk, List.mem_cons] at hx
      rcases hx with h1 | h1
      · exact Or.inl (by rw [h1, hk])
      · exact Or.inr (List.mem_cons_of_mem _ h1)
    · simp only [setKey, if_neg hk, List.mem_cons] at hx
      rcases hx with h1 | h1
      · exact Or.inr (by rw [h1]; exact List.mem_cons_self _ _)
      · rcases ih h1 with h2 | h2
        · exact Or.inl h2
        · exact Or.inr (List.mem_cons_of_mem _ h2)

theorem mem_keys_setKey (k2 key : String) (v : ℚ × ℤ) (cache : Cache)
    (h : k2 ∈ (setKey key v cache).map Prod.fst) :
    k2 = key ∨ k2 ∈ cache.map Prod.fst := by
  simp only [List.mem_map] at h
  obtain ⟨x, hx, rfl⟩ := h
  rcases mem_setKey x key v cache hx with rfl | hmem
  · exact Or.inl rfl
  · exact Or.inr (List.mem_map_of_mem _ hmem)

theorem keysNodup_setKey (key : String) (v : ℚ × ℤ) (cache : Cache)
    (h : KeysNodup cache) : KeysNodup (setKey key v cache) := by
  induction cache with
  | nil => simp [KeysNodup, setKey]
  | cons e rest ih =>
    obtain ⟨k, w⟩ := e
    have hnd : KeysNodup rest := (List.nodup_cons.mp h).2
    have hk_not : k ∉ rest.map Prod.fst := (List.nodup_cons.mp h).1
    by_cases hk : k = key
    · subst hk
      simpa [KeysNodup, setKey] using h
    · simp only [KeysNodup, setKey, if_neg hk, List.map_cons, List.nodup_cons]
      refine ⟨fun hmem => ?_, ih hnd⟩
      rcases mem_keys_setKey k key v rest hmem with rfl | hmem2
      · exact hk rfl
      · exact hk_not hmem2

theorem keysNodup_clean (window_size : ℤ) (now : ℚ) (cache : Cache)
    (h : KeysNodup cache) : KeysNodup (clean_old_requests window_size now cache) :=
  List.Nodup.sublist ((List.filter_sublist cache).map Prod.fst) h

/-! One-step behaviour of `is_allowed_key`, by branch of the source. -/

theorem is_allowed_key_fresh (config : RateLimitConfig) (key : String) (auth : Bool)
    (now : ℚ) (cache : Cache) (h : lookup key cache = none) :
    is_allowed_key config key auth now cache =
      (setKey key (now, 1) (clean_old_requests config.window_size now cache),
        Except.ok true) := by
  have h1 : lookup key (clean_old_requests config.window_size now cache) = none :=
    lookup_filter_none _ _ _ h
  simp only [is_allowed_key, h1]

theorem is_allowed_key_rollover (config : RateLimitConfig) (key : String) (auth : Bool)
    (now : ℚ) (cache : Cache) (t0 : ℚ) (n : ℤ)
    (hnodup : KeysNodup cache) (h : lookup key cache = some (t0, n))
    (hexp : (config.window_size : ℚ) ≤ now - t0) :
    is_allowed_key config key auth now cache =
      (setKey key (now, 1) (clean_old_requests config.window_size now cache),
        Except.ok true) := by
  have h1 : lookup key (clean_old_requests config.window_size now cache) = none := by
    rw [lookup_clean _ _ _ _ hnodup, h]
    simp [not_lt.mpr hexp]
  simp only [is_allowed_key, h1]

theorem is_allowed_key_incr (config : RateLimitConfig) (key : String) (auth : Bool)
    (now : ℚ) (cache : Cache) (t0 : ℚ) (n : ℤ)
    (hnodup : KeysNodup cache) (h : lookup key cache = some (t0, n))
    (hin : now - t0 < (config.window_size : ℚ))
    (hcount : n < (if auth then config.auth_requests_limit else config.requests_limit)) :
    is_allowed_key config key auth now cache =
      (setKey key (t0, n + 1) (clean_old_requests config.window_size now cache),
        Except.ok true) := by
  have h1 : lookup key (clean_old_requests config.window_size now cache) = some (t0, n) := by
    rw [lookup_clean _ _ _ _ hnodup, h]
    simp [hin]
  simp only [is_allowed_key, h1]
  simp [not_le.mpr hin, not_le.mpr hcount]

theorem is_allowed_key_deny (config : RateLimitConfig) (key : String) (auth : Bool)
    (now : ℚ) (cache : Cache) (t0 : ℚ) (n : ℤ)
    (hnodup : KeysNodup cache) (h : lookup key cache = some (t0, n))
    (hin : now - t0 < (config.window_size : ℚ))
    (hcount : (if auth then config.auth_requests_limit else config.requests_limit) ≤ n) :
    is_allowed_key config key auth now cache =
      (clean_old_requests config.window_size now cache,
        Except.error (mkRateLimitExceeded
          ("Rate limit exceeded. Try again in " ++
            intToString (pyInt ((config.window_size : ℚ) - (now - t0))) ++ " seconds")
          (pyInt ((config.window_size : ℚ) - (now - t0))))) := by
  have h1 : lookup key (clean_old_requests config.window_size now cache) = some (t0, n) := by
    rw [lookup_clean _ _ _ _ hnodup, h]
    simp [hin]
  simp only [is_allowed_key, h1]
  simp [not_le.mpr hin, hcount]

/-- Inversion: a raised `RateLimitExceeded` can only come from the saturated
in-window branch, and the returned store is the swept one. -/
theorem is_allowed_key_error_inversion (config : RateLimitConfig) (key : String)
    (auth : Bool) (now : ℚ) (cache cache2 : Cache) (e : RateLimitExceeded)
    (h : is_allowed_key config key auth now cache = (cache2, Except.error e)) :
    cache2 = clean_old_requests config.window_size now cache ∧
    ∃ t0 n, lookup key (clean_old_requests config.window_size now cache) = some (t0, n) ∧
      now - t0 < (config.window_size : ℚ) ∧
      (if auth then config.auth_requests_limit else config.requests_limit) ≤ n ∧
      e = mkRateLimitExceeded
            ("Rate limit exceeded. Try again in " ++
              intToString (pyInt ((config.window_size : ℚ) - (now - t0))) ++ " seconds")
            (pyInt ((config.window_size : ℚ) - (now - t0))) := by
  simp only [is_allowed_key] at h
  generalize hlim : (if auth = true then config.auth_requests_limit else config.requests_limit)
      = limit at h ⊢
  split at h
  · rename_i t0 n hl
    split at h
    · simp at h
    · rename_i hexp
      split at h
      · rename_i hcount
        rw [Prod.mk.injEq] at h
        exact ⟨h.1.symm, t0, n, hl, not_le.mp hexp, hcount, (Except.error.inj h.2).symm⟩
      · simp at h
  · simp at h

/-! Behaviour of a sequence of checks for one key. -/

theorem runChecks_append (config : RateLimitConfig) (key : String) (auth : Bool)
    (ts1 ts2 : List ℚ) (cache : Cache) :
    runChecks config key auth (ts1 ++ ts2) cache =
      ((runChecks config key auth ts2 (runChecks config key auth ts1 cache).1).1,
        (runChecks config key auth ts1 cache).2 ++
          (runChecks config key auth ts2 (runChecks config key auth ts1 cache).1).2) := by
  induction ts1 generalizing cache with
  | nil => simp [runChecks]
  | cons t ts ih => simp [runChecks, ih]

/-- While the count stays below the effective limit and every check falls
strictly inside the window started at `t0`, every check is admitted and the
entry's count advances by one per check, keeping `t0` as window start. -/
theorem runChecks_ok (config : RateLimitConfig) (key : String) (auth : Bool) (t0 : ℚ)
    (ts : List ℚ) :
    ∀ (cache : Cache) (n : ℤ), KeysNodup cache → lookup key cache = some (t0, n) →
      (∀ t ∈ ts, t - t0 < (config.window_size : ℚ)) →
      n + ts.length ≤ (if auth then config.auth_requests_limit else config.requests_limit) →
      KeysNodup (runChecks config key auth ts cache).1 ∧
      lookup key (runChecks config key auth ts cache).1 = some (t0, n + ts.length) ∧
      (runChecks config key auth ts cache).2 = List.replicate ts.length (Except.ok true) := by
  induction ts with
  | nil =>
    intro cache n h1 h2 _ _
    simpa [runChecks] using ⟨h1, h2⟩
  | cons t ts ih =>
    intro cache n h1 h2 hwin hbound
    simp only [List.length_cons] at hbound
    push_cast at hbound
    have hwt : t - t0 < (config.window_size : ℚ) := hwin t (List.mem_cons_self _ _)
    have hcount : n < (if auth then config.auth_requests_limit else config.requests_limit) := by
      have hlen : (0 : ℤ) ≤ (ts.length : ℤ) := Int.natCast_nonneg _
      omega
    have hstep := is_allowed_key_incr config key auth t cache t0 n h1 h2 hwt hcount
    have h1' : KeysNodup (setKey key (t0, n + 1)
        (clean_old_requests config.window_size t cache)) :=
      keysNodup_setKey _ _ _ (keysNodup_clean _ _ _ h1)
    have h2' : lookup key (setKey key (t0, n + 1)
        (clean_old_requests config.window_size t cache)) = some (t0, n + 1) :=
      lookup_setKey_self _ _ _
    have hbound' : n + 1 + (ts.length : ℤ) ≤
        (if auth then config.auth_requests_limit else config.requests_limit) := by
      omega
    have hres := ih _ (n + 1) h1' h2' (fun u hu => hwin u (List.mem_cons_of_mem _ hu)) hbound'
    simp only [runChecks, hstep]
    refine ⟨hres.1, ?_, ?_⟩
    · rw [hres.2.1]
      congr 2
      simp only [List.length_cons]
      push_cast
      ring
    · rw [hres.2.2]
      simp [List.replicate_succ]

/-- A fresh key saturates: with effective limit `L ≥ 1`, a run of `L + 1`
checks all strictly inside the window of the first is `L` admissions followed
by one denial. -/
theorem runChecks_saturation (config : RateLimitConfig) (key : String) (auth : Bool)
    (L : ℕ) (hL : 1 ≤ L)
    (hlimit : (if auth then config.auth_requests_limit else config.requests_limit) = (L : ℤ))
    (t0 : ℚ) (ts : List ℚ) (hlen : ts.length = L) (cache : Cache)
    (hnodup : KeysNodup cache) (hfresh : lookup key cache = none)
    (hwin : ∀ t ∈ t0 :: ts, t - t0 < (config.window_size : ℚ)) :
    ∃ e, (runChecks config key auth (t0 :: ts) cache).2 =
      List.replicate L (Except.ok true) ++ [Except.error e] := by
  have hne : ts ≠ [] := by
    intro hnil
    rw [hnil] at hlen
    simp at hlen
    omega
  obtain ⟨ts', tl, hts⟩ : ∃ ts' tl, ts = ts' ++ [tl] :=
    ⟨ts.dropLast, ts.getLast hne, (List.dropLast_append_getLast hne).symm⟩
  subst hts
  have hstep1 := is_allowed_key_fresh config key auth t0 cache hfresh
  have h1' : KeysNodup (setKey key (t0, 1) (clean_old_requests config.window_size t0 cache)) :=
    keysNodup_setKey _ _ _ (keysNodup_clean _ _ _ hnodup)
  have h2' : lookup key (setKey key (t0, 1)
      (clean_old_requests config.window_size t0 cache)) = some (t0, 1) :=
    lookup_setKey_self _ _ _
  have hlen' : ts'.length + 1 = L := by simpa using hlen
  have hbound : (1 : ℤ) + ts'.length ≤
      (if auth then config.auth_requests_limit else config.requests_limit) := by
    rw [hlimit]
    omega
  have hwin' : ∀ t ∈ ts', t - t0 < (config.window_size : ℚ) := fun u hu =>
    hwin u (List.mem_cons_of_mem _ (List.mem_append_left _ hu))
  have hrun := runChecks_ok config key auth t0 ts' _ 1 h1' h2' hwin' hbound
  have hcountL : (1 : ℤ) + ts'.length =
      (if auth then config.auth_requests_limit else config.requests_limit) := by
    rw [hlimit]
    omega
  have hwtl : tl - t0 < (config.window_size : ℚ) :=
    hwin tl (List.mem_cons_of_mem _ (List.mem_append_right _ (List.mem_singleton_self _)))
  have hdeny := is_allowed_key_deny config key auth tl
    (runChecks config key auth ts' (setKey key (t0, 1)
      (clean_old_requests config.window_size t0 cache))).1 t0 (1 + ts'.length)
    hrun.1 hrun.2.1 hwtl hcountL.ge
  refine ⟨mkRateLimitExceeded
      ("Rate limit exceeded. Try again in " ++
        intToString (pyInt ((config.window_size : ℚ) - (tl - t0))) ++ " seconds")
      (pyInt ((config.window_size : ℚ) - (tl - t0))), ?_⟩
  simp only [runChecks, hstep1]
  rw [runChecks_append]
  simp only [runChecks, hdeny]
  rw [hrun.2.2, ← hlen']
  simp [List.replicate_succ]

/-- A key present in the swept store was present, unexpired, with the same
entry in the store before the sweep. -/
theorem lookup_clean_some (window_size : ℤ) (now : ℚ) (key : String) (cache : Cache)
    (t0 : ℚ) (n : ℤ) (hnodup : KeysNodup cache)
    (h : lookup key (clean_old_requests window_size now cache) = some (t0, n)) :
    lookup key cache = some (t0, n) ∧ now - t0 < (window_size : ℚ) := by
  rw [lookup_clean _ _ _ _ hnodup] at h
  rcases hlc : lookup key cache with _ | v <;> rw [hlc] at h
  · simp at h
  · dsimp only at h
    by_cases hk : now - v.1 < (window_size : ℚ)
    · rw [if_pos hk] at h
      obtain rfl := Option.some.inj h
      exact ⟨rfl, hk⟩
    · rw [if_neg hk] at h
      simp at h

/-! The claims. -/

/-- C1: for a key with no prior entry and an unauthenticated caller with
effective limit `L = requests_limit` (`L ≥ 1`), if `L + 1` admission checks
for that key all happen strictly within `window_size` seconds of the first,
the first `L` checks are admitted and the `(L + 1)`-th raises
`RateLimitExceeded`. -/
theorem C1_fresh_key_admissions_then_denial (config : RateLimitConfig) (key : String)
    (cache : Cache) (L : ℕ) (hL : 1 ≤ L) (hlimit : config.requests_limit = (L : ℤ))
    (t0 : ℚ) (ts : List ℚ) (hlen : ts.length = L) (hnodup : KeysNodup cache)
    (hfresh : lookup key cache = none)
    (hwin : ∀ t ∈ t0 :: ts, t - t0 < (config.window_size : ℚ)) :
    ∃ e, (runChecks config key false (t0 :: ts) cache).2 =
      List.replicate L (Except.ok true) ++ [Except.error e] :=
  runChecks_saturation config key false L hL (by simpa using hlimit) t0 ts hlen
    cache hnodup hfresh hwin

theorem C1_witness :
    ∃ e, (runChecks ⟨1, 60, 2⟩ "k" false [0, 0] []).2 =
      List.replicate 1 (Except.ok true) ++ [Except.error e] :=
  C1_fresh_key_admissions_then_denial ⟨1, 60, 2⟩ "k" [] 1 le_rfl (by norm_num) 0 [0]
    rfl (by simp [KeysNodup]) rfl
    (by
      intro t ht
      simp only [List.mem_cons, List.not_mem_nil, or_false] at ht
      rcases ht with rfl | rfl <;> norm_num)

/-- C2: a check at time `t` on a key whose stored entry has window start `t0`
with `t - t0 ≥ window_size` is admitted regardless of the stored count and
leaves the entry at `(t, 1)`. -/
theorem C2_window_rollover_resets (config : RateLimitConfig) (key : String)
    (auth : Bool) (cache : Cache) (t0 : ℚ) (n : ℤ) (t : ℚ)
    (hnodup : KeysNodup cache) (hentry : lookup key cache = some (t0, n))
    (hexp : (config.window_size : ℚ) ≤ t - t0) :
    (is_allowed_key config key auth t cache).2 = Except.ok true ∧
    lookup key (is_allowed_key config key auth t cache).1 = some (t, 1) := by
  rw [is_allowed_key_rollover config key auth t cache t0 n hnodup hentry hexp]
  exact ⟨rfl, lookup_setKey_self _ _ _⟩

theorem C2_witness :
    (is_allowed_key ⟨1, 10, 2⟩ "k" false 10 [("k", (0, 5))]).2 = Except.ok true ∧
    lookup "k" (is_allowed_key ⟨1, 10, 2⟩ "k" false 10 [("k", (0, 5))]).1 = some (10, 1) :=
  C2_window_rollover_resets ⟨1, 10, 2⟩ "k" false [("k", (0, 5))] 0 5 10
    (by simp [KeysNodup]) rfl (by norm_num)

/-- C3: a denial at time `t` for a key whose entry started at `w` (so
`t - w < window_size` and the count has reached the effective limit) carries
`retry_after = int(window_size - (t - w))` (truncation toward zero), and this
value is never negative. -/
theorem C3_retry_after_value (config : RateLimitConfig) (key : String) (auth : Bool)
    (cache : Cache) (w : ℚ) (n : ℤ) (t : ℚ)
    (hnodup : KeysNodup cache) (hentry : lookup key cache = some (w, n))
    (hin : t - w < (config.window_size : ℚ))
    (hsat : (if auth then config.auth_requests_limit else config.requests_limit) ≤ n) :
    ∃ e, (is_allowed_key config key auth t cache).2 = Except.error e ∧
      e.retry_after = pyInt ((config.window_size : ℚ) - (t - w)) ∧
      0 ≤ e.retry_after := by
  rw [is_allowed_key_deny config key auth t cache w n hnodup hentry hin hsat]
  refine ⟨_, rfl, rfl, ?_⟩
  have hpos : (0 : ℚ) ≤ (config.window_size : ℚ) - (t - w) := by linarith
  simp only [mkRateLimitExceeded, pyInt, if_pos hpos]
  exact Rat.le_floor.mpr (by exact_mod_cast hpos)

theorem C3_witness :
    ∃ e, (is_allowed_key ⟨1, 10, 2⟩ "k" false (5 / 2) [("k", (0, 1))]).2 = Except.error e ∧
      e.retry_after = pyInt (((10 : ℤ) : ℚ) - (5 / 2 - 0)) ∧
      0 ≤ e.retry_after :=
  C3_retry_after_value ⟨1, 10, 2⟩ "k" false [("k", (0, 1))] 0 1 (5 / 2)
    (by simp [KeysNodup]) rfl (by norm_num) (by norm_num)

/-- C4 as frozen is false: a denied check can still mutate the store, because
the sweep `_clean_old_requests` runs before the count check and removes other
keys' expired entries. Here key "stale" is expired at `now = 12`, the check on
key "k" is denied, and the store after the check lost the "stale" entry. -/
theorem C4_counterexample_denied_check_sweeps :
    (∃ e, (is_allowed_key ⟨1, 10, 2⟩ "k" false 12
        [("stale", (0, 1)), ("k", (5, 1))]).2 = Except.error e) ∧
    (is_allowed_key ⟨1, 10, 2⟩ "k" false 12 [("stale", (0, 1)), ("k", (5, 1))]).1 ≠
      [("stale", (0, 1)), ("k", (5, 1))] := by
  have hden := is_allowed_key_deny ⟨1, 10, 2⟩ "k" false 12
    [("stale", (0, 1)), ("k", (5, 1))] 5 1 (by simp [KeysNodup]) (by decide)
    (by norm_num) (by norm_num)
  have hclean : clean_old_requests 10 12 [("stale", (0, 1)), ("k", (5, 1))] =
      [("k", (5, 1))] := by
    simp only [clean_old_requests, List.filter]
    norm_num
  constructor
  · exact ⟨_, by rw [hden]⟩
  · rw [hden]
    simp only [hclean]
    decide

/-- C4 amended: on a denied admission check no entry is added or incremented
and the denied key's entry is unchanged, but the store is left equal to the
pre-check store with the entries expired at the check time removed (the sweep
precedes the count check and runs on the denied path too). -/
theorem C4_denied_check_only_sweeps (config : RateLimitConfig) (key : String)
    (auth : Bool) (now : ℚ) (cache cache2 : Cache) (e : RateLimitExceeded)
    (hnodup : KeysNodup cache)
    (hden : is_allowed_key config key auth now cache = (cache2, Except.error e)) :
    (∀ x, x ∈ cache2 ↔ x ∈ cache ∧ now - x.2.1 < (config.window_size : ℚ)) ∧
    lookup key cache2 = lookup key cache := by
  obtain ⟨hc, t0, n, hl, _, _, _⟩ :=
    is_allowed_key_error_inversion config key auth now cache cache2 e hden
  subst hc
  refine ⟨fun x => mem_clean_iff _ _ _ x, ?_⟩
  rw [hl, (lookup_clean_some _ _ _ _ _ _ hnodup hl).1]

theorem C4_amended_witness :
    (∀ x, x ∈ (is_allowed_key ⟨1, 10, 2⟩ "k" false 12
        [("stale", (0, 1)), ("k", (5, 1))]).1 ↔
      x ∈ ([("stale", (0, 1)), ("k", (5, 1))] : Cache) ∧
        (12 : ℚ) - x.2.1 < (((10 : ℤ) : ℚ))) ∧
    lookup "k" (is_allowed_key ⟨1, 10, 2⟩ "k" false 12
        [("stale", (0, 1)), ("k", (5, 1))]).1 =
      lookup "k" [("stale", (0, 1)), ("k", (5, 1))] := by
  have hden := is_allowed_key_deny ⟨1, 10, 2⟩ "k" false 12
    [("stale", (0, 1)), ("k", (5, 1))] 5 1 (by simp [KeysNodup]) (by decide)
    (by norm_num) (by norm_num)
  have h := C4_denied_check_only_sweeps ⟨1, 10, 2⟩ "k" false 12
    [("stale", (0, 1)), ("k", (5, 1))] _ _ (by simp [KeysNodup]) hden
  rw [hden]
  simpa using h

/-- C5: after any admission check at time `now` (admitted or denied, window
positive), no stored entry has `now - window_start ≥ window_size`; and a key
whose previous window has expired is treated as a first request, with a fresh
window `(now, 1)` and an admission. -/
theorem C5_sweep_leaves_no_expired_entry (config : RateLimitConfig) (key : String)
    (auth : Bool) (now : ℚ) (cache : Cache)
    (hnodup : KeysNodup cache) (hpos : 0 < config.window_size) :
    (∀ x ∈ (is_allowed_key config key auth now cache).1,
        now - x.2.1 < (config.window_size : ℚ)) ∧
    (∀ t0 n, lookup key cache = some (t0, n) →
      (config.window_size : ℚ) ≤ now - t0 →
      (is_allowed_key config key auth now cache).2 = Except.ok true ∧
      lookup key (is_allowed_key config key auth now cache).1 = some (now, 1)) := by
  have hposQ : (0 : ℚ) < (config.window_size : ℚ) := by exact_mod_cast hpos
  have hmem : ∀ (τ : ℚ) (m : ℤ), now - τ < (config.window_size : ℚ) →
      ∀ x ∈ setKey key (τ, m) (clean_old_requests config.window_size now cache),
        now - x.2.1 < (config.window_size : ℚ) := by
    intro τ m hτ x hx
    rcases mem_setKey x key (τ, m) _ hx with rfl | hx2
    · simpa using hτ
    · exact ((mem_clean_iff _ _ _ x).mp hx2).2
  constructor
  · intro x hx
    simp only [is_allowed_key] at hx
    generalize (if auth = true then config.auth_requests_limit else config.requests_limit)
        = limit at hx
    split at hx
    · rename_i t0 n hl
      split at hx
      · exact hmem now 1 (by simpa using hposQ) x hx
      · split at hx
        · exact ((mem_clean_iff _ _ _ x).mp hx).2
        · exact hmem t0 (n + 1)
            ((lookup_clean_some _ _ _ _ _ _ hnodup hl).2) x hx
    · exact hmem now 1 (by simpa using hposQ) x hx
  · intro t0 n hentry hexp
    rw [is_allowed_key_rollover config key auth now cache t0 n hnodup hentry hexp]
    exact ⟨rfl, lookup_setKey_self _ _ _⟩

theorem C5_witness :
    (∀ x ∈ (is_allowed_key ⟨2, 10, 4⟩ "k" false 3 [("k", (0, 1))]).1,
        (3 : ℚ) - x.2.1 < (((10 : ℤ) : ℚ))) ∧
    (∀ t0 n, lookup "k" ([("k", (0, 1))] : Cache) = some (t0, n) →
      (((10 : ℤ) : ℚ)) ≤ 3 - t0 →
      (is_allowed_key ⟨2, 10, 4⟩ "k" false 3 [("k", (0, 1))]).2 = Except.ok true ∧
      lookup "k" (is_allowed_key ⟨2, 10, 4⟩ "k" false 3 [("k", (0, 1))]).1 =
        some (3, 1)) := by
  have h := C5_sweep_leaves_no_expired_entry ⟨2, 10, 4⟩ "k" false 3 [("k", (0, 1))]
    (by simp [KeysNodup]) (by norm_num)
  simpa using h

/-- C6: the effective limit is `auth_requests_limit` for an authenticated
caller and `requests_limit` otherwise — an authenticated check behaves exactly
like an unauthenticated one whose baseline is the authenticated limit — and
with `requests_limit = 50`, `auth_requests_limit = 200`, an authenticated
caller at a fresh key is admitted 200 times within a window and denied on the
201st, where an unauthenticated caller is admitted 50 times and denied on the
51st. -/
theorem C6_effective_limit_by_authentication (config : RateLimitConfig)
    (hbase : config.requests_limit = 50) (hauth : config.auth_requests_limit = 200)
    (key : String) (t0 : ℚ)
    (tsA : List ℚ) (hlenA : tsA.length = 200) (cacheA : Cache)
    (hnodupA : KeysNodup cacheA) (hfreshA : lookup key cacheA = none)
    (hwinA : ∀ t ∈ t0 :: tsA, t - t0 < (config.window_size : ℚ))
    (tsB : List ℚ) (hlenB : tsB.length = 50) (cacheB : Cache)
    (hnodupB : KeysNodup cacheB) (hfreshB : lookup key cacheB = none)
    (hwinB : ∀ t ∈ t0 :: tsB, t - t0 < (config.window_size : ℚ)) :
    (∀ (key2 : String) (now : ℚ) (cache2 : Cache),
        is_allowed_key config key2 true now cache2 =
          is_allowed_key ⟨config.auth_requests_limit, config.window_size,
            config.auth_requests_limit⟩ key2 false now cache2) ∧
    (∃ e, (runChecks config key true (t0 :: tsA) cacheA).2 =
        List.replicate 200 (Except.ok true) ++ [Except.error e]) ∧
    (∃ e, (runChecks config key false (t0 :: tsB) cacheB).2 =
        List.replicate 50 (Except.ok true) ++ [Except.error e]) := by
  refine ⟨fun key2 now cache2 => rfl, ?_, ?_⟩
  · exact runChecks_saturation config key true 200 (by norm_num)
      (by norm_num [hauth]) t0 tsA hlenA cacheA hnodupA hfreshA hwinA
  · exact runChecks_saturation config key false 50 (by norm_num)
      (by norm_num [hbase]) t0 tsB hlenB cacheB hnodupB hfreshB hwinB

theorem C6_witness :
    (∀ (key2 : String) (now : ℚ) (cache2 : Cache),
        is_allowed_key ⟨50, 60, 200⟩ key2 true now cache2 =
          is_allowed_key ⟨200, 60, 200⟩ key2 false now cache2) ∧
    (∃ e, (runChecks ⟨50, 60, 200⟩ "k" true (0 :: List.replicate 200 0) []).2 =
        List.replicate 200 (Except.ok true) ++ [Except.error e]) ∧
    (∃ e, (runChecks ⟨50, 60, 200⟩ "k" false (0 :: List.replicate 50 0) []).2 =
        List.replicate 50 (Except.ok true) ++ [Except.error e]) :=
  C6_effective_limit_by_authentication ⟨50, 60, 200⟩ rfl rfl "k" 0
    (List.replicate 200 0) (List.length_replicate 200 0) [] (by simp [KeysNodup]) rfl
    (by
      intro t ht
      simp only [List.mem_cons, List.mem_replicate] at ht
      rcases ht with rfl | ⟨_, rfl⟩ <;> norm_num)
    (List.replicate 50 0) (List.length_replicate 50 0) [] (by simp [KeysNodup]) rfl
    (by
      intro t ht
      simp only [List.mem_cons, List.mem_replicate] at ht
      rcases ht with rfl | ⟨_, rfl⟩ <;> norm_num)

/-- C7 as frozen is false at a request whose `X-Forwarded-For` header is
present but empty: Python truthiness makes the code fall back to the direct
connection address, while the claim's "if that header is present" reading
would use the (empty) first entry of the header. -/
theorem C7_counterexample_empty_forwarded_header :
    get_cache_key ⟨none, some "", some "9.9.9.9", "/a"⟩ ≠
      get_cache_key_claimed ⟨none, some "", some "9.9.9.9", "/a"⟩ := by
  decide

/-- C7 amended: the default key function returns `"user:" + identity` when an
authenticated identity is resolvable, and otherwise
`"ip:<addr>:path:<path>"` where the address is the stripped first
comma-separated entry of `X-Forwarded-For` if that header is present and
non-empty, else the direct connection address, else `"unknown"`. -/
theorem C7_default_key_derivation (request : Request) :
    get_cache_key request = get_cache_key_amended request := by
  rcases request with ⟨u, f, c, p⟩
  rcases u with _ | uid
  · rcases f with _ | fv
    · rfl
    · rfl
  · rfl

/-- C8: on a non-excluded request, a denial makes `dispatch` return — without
invoking the downstream handler — a response with status 429, body
`[("detail", message)]` and the exception's headers, which contain
`Retry-After` with the computed seconds whenever `retry_after > 0`; an
admission forwards the request and returns the handler's response unchanged. -/
theorem C8_denial_response_shape {ρ : Type} (exclude_paths : List String)
    (config : RateLimitConfig) (now : ℚ) (cache : Cache) (request : Request)
    (call_next : Request → ρ)
    (hnotex : ¬ ∃ p ∈ exclude_paths, pyStartsWith request.url_path p = true) :
    (∀ cache2 e, is_allowed config now request cache = (cache2, Except.error e) →
        dispatch exclude_paths config now cache request call_next =
          (cache2, DispatchResponse.json 429 [("detail", e.detail)] e.headers) ∧
        (0 < e.retry_after →
          e.headers = some [("Retry-After", intToString e.retry_after)])) ∧
    (∀ cache2 b, is_allowed config now request cache = (cache2, Except.ok b) →
        dispatch exclude_paths config now cache request call_next =
          (cache2, DispatchResponse.fromNext (call_next request))) := by
  have hany : exclude_paths.any (fun p => pyStartsWith request.url_path p) = false := by
    rw [Bool.eq_false_iff]
    intro hmm
    rw [List.any_eq_true] at hmm
    obtain ⟨p, hp, hs⟩ := hmm
    exact hnotex ⟨p, hp, hs⟩
  constructor
  · intro cache2 e hden
    obtain ⟨hc, t0, n, hl, hin, hcnt, he⟩ := is_allowed_key_error_inversion config
      (get_cache_key request) (get_user request).isSome now cache cache2 e hden
    subst he
    constructor
    · simp only [dispatch, hany, Bool.false_eq_true, if_false, hden, mkRateLimitExceeded]
    · intro hrpos
      simp only [mkRateLimitExceeded] at hrpos ⊢
      rw [if_pos (by omega)]
  · intro cache2 b hok
    simp only [dispatch, hany, Bool.false_eq_true, if_false, hok]

theorem C8_witness :
    dispatch ([] : List String) ⟨1, 10, 2⟩ 5 [("ip:1.1.1.1:path:/x", (0, 1))]
        ⟨none, none, some "1.1.1.1", "/x"⟩ (fun _ => true) =
      ([("ip:1.1.1.1:path:/x", (0, 1))],
        DispatchResponse.json 429
          [("detail", "Rate limit exceeded. Try again in 5 seconds")]
          (some [("Retry-After", "5")])) := by
  have hkey : get_cache_key ⟨none, none, some "1.1.1.1", "/x"⟩ =
      "ip:1.1.1.1:path:/x" := by decide
  have hauth : (get_user ⟨none, none, some "1.1.1.1", "/x"⟩).isSome = false := rfl
  have hden0 := is_allowed_key_deny ⟨1, 10, 2⟩ "ip:1.1.1.1:path:/x" false 5
    [("ip:1.1.1.1:path:/x", (0, 1))] 0 1 (by simp [KeysNodup]) (by decide)
    (by norm_num) (by norm_num)
  have hclean : clean_old_requests 10 5 [("ip:1.1.1.1:path:/x", (0, 1))] =
      [("ip:1.1.1.1:path:/x", (0, 1))] := by
    simp only [clean_old_requests, List.filter]
    norm_num
  have hval : pyInt (((10 : ℤ) : ℚ) - (5 - 0)) = 5 := by
    norm_num [pyInt, Rat.floor_def']
  have hden : is_allowed ⟨1, 10, 2⟩ 5 ⟨none, none, some "1.1.1.1", "/x"⟩
      [("ip:1.1.1.1:path:/x", (0, 1))] =
      ([("ip:1.1.1.1:path:/x", (0, 1))],
        Except.error (mkRateLimitExceeded
          "Rate limit exceeded. Try again in 5 seconds" 5)) := by
    rw [is_allowed, hkey, hauth, hden0, hclean, hval]
    have hstr : "Rate limit exceeded. Try again in " ++ intToString 5 ++ " seconds" =
        "Rate limit exceeded. Try again in 5 seconds" := by decide
    rw [hstr]
  have h := (C8_denial_response_shape [] ⟨1, 10, 2⟩ 5 [("ip:1.1.1.1:path:/x", (0, 1))]
      ⟨none, none, some "1.1.1.1", "/x"⟩ (fun _ => true) (by simp)).1
      [("ip:1.1.1.1:path:/x", (0, 1))]
      (mkRateLimitExceeded "Rate limit exceeded. Try again in 5 seconds" 5) hden
  rw [h.1]
  decide

/-- C9: a request whose path starts with one of the excluded prefixes is
forwarded to the downstream handler with the store untouched, whatever the
store holds. -/
theorem C9_excluded_path_bypass {ρ : Type} (exclude_paths : List String)
    (config : RateLimitConfig) (now : ℚ) (cache : Cache) (request : Request)
    (call_next : Request → ρ)
    (hex : ∃ p ∈ exclude_paths, pyStartsWith request.url_path p = true) :
    dispatch exclude_paths config now cache request call_next =
      (cache, DispatchResponse.fromNext (call_next request)) := by
  have hany : exclude_paths.any (fun p => pyStartsWith request.url_path p) = true := by
    obtain ⟨p, hp, hs⟩ := hex
    exact List.any_eq_true.mpr ⟨p, hp, hs⟩
  simp [dispatch, hany]

theorem C9_witness :
    dispatch ["/api/docs"] ⟨1, 60, 2⟩ 0 [("k", (0, 99))]
      ⟨none, none, none, "/api/docs/x"⟩ (fun _ => (0 : ℕ)) =
      ([("k", (0, 99))], DispatchResponse.fromNext 0) :=
  C9_excluded_path_bypass ["/api/docs"] ⟨1, 60, 2⟩ 0 [("k", (0, 99))]
    ⟨none, none, none, "/api/docs/x"⟩ (fun _ => 0) (by decide)

/-- C10: a `RateLimitConfig` constructed with `auth_requests_limit` equal to
`None` or `0` stores `2 * requests_limit` as the authenticated limit (Python
`or` treats `0` as falsy, so an explicit `0` is silently replaced). -/
theorem C10_auth_limit_default_on_falsy (requests_limit window_size : ℤ) :
    (RateLimitConfig.ofInit requests_limit window_size none).auth_requests_limit =
      2 * requests_limit ∧
    (RateLimitConfig.ofInit requests_limit window_size (some 0)).auth_requests_limit =
      2 * requests_limit := by
  constructor <;> simp [RateLimitConfig.ofInit] <;> ring

end Ratelimiter
